import Mathlib

/-!
Shallow embedding of the `reconstructed` Ansible inventory plugin
(`src/inventory_plugins/reconstructed.py`): the scoped variable storage
(`VariableStorage`), the instruction AST (`RcInstruction` and its concrete
subclasses), and the control-flow evaluator (`run_for`, `run_iteration`,
`execute_action`, `RciBlock.run_section`).

Modelling conventions:
- Python dictionaries are modelled as functions `String → Option Value`
  (`VarMap`); dictionary equality is function equality.
- The template engine (`Templar`) and the inventory are external
  collaborators; the templar is an injected record of functions, the
  inventory a small state record.
- Python exceptions are modelled by the `RcError` type threaded through
  results; `RcError.ansibleError` corresponds to `AnsibleError` and its
  subclasses (`AnsibleRuntimeError`, catchable by a block rescue clause),
  `RcError.otherError` to any non-Ansible exception (`TypeError`,
  `AttributeError`, `IndexError`, ...), which `except AnsibleError` does
  not catch.
- The mutually recursive interpreter is indexed by a fuel parameter so it
  is structurally recursive; fuel exhaustion surfaces as an uncatchable
  `RcError.otherError`.  Real executions correspond to any sufficiently
  large fuel, and every theorem below quantifies over the fuel.
- Error message strings approximate the Python format strings (the
  quoting around interpolated values is simplified); no property below
  depends on the exact text of a message, only on the error class and,
  for `reconstructed_error`, on the message being passed through intact.
-/

/-- Values manipulated by the interpreter (Python values: strings, booleans,
integers, lists, `None`). -/
inductive Value where
  | str : String → Value
  | bool : Bool → Value
  | int : Int → Value
  | null : Value
  | list : List Value → Value
  deriving Repr

/-- Python exceptions seen by the plugin.  `ansibleError` stands for
`AnsibleError` and its subclasses (in particular `AnsibleRuntimeError`);
`otherError` stands for any exception that is not an `AnsibleError`. -/
inductive RcError where
  | ansibleError : String → RcError
  | otherError : String → RcError
  deriving Repr, DecidableEq

/-- Outcome of executing an instruction: a normal boolean return value
(`True` = continue, `False` = interrupt) or a raised exception. -/
inductive Outcome where
  | ok : Bool → Outcome
  | err : RcError → Outcome
  deriving Repr, DecidableEq

/-- A Python dictionary with string keys, as a lookup function. -/
def VarMap : Type := String → Option Value

/-- Model of `m[k] = v` on a dictionary. -/
def VarMap.set (m : VarMap) (k : String) (v : Value) : VarMap :=
  fun x => if x = k then some v else m x

/-- Model of `del m[k]` on a dictionary (total: deleting an absent key is the
identity; the call sites that can raise `KeyError` handle it explicitly). -/
def VarMap.del (m : VarMap) (k : String) : VarMap :=
  fun x => if x = k then none else m x

/-- The empty dictionary. -/
def VarMap.empty : VarMap := fun _ => none

/-- Model of `h.copy()` followed by `.update(s)`: host facts overlaid by
script-local variables, locals taking precedence. -/
def VarMap.overlay (h s : VarMap) : VarMap :=
  fun k =>
    match s k with
    | some v => some v
    | none => h k

/-- The `VariableStorage` class: host facts, script-local variables, the
save/restore stack and the merged read-through cache.  A stack record maps
a variable name to `some v` when the variable existed with value `v` at
push time (Python `(True, copy.copy(value))`) and to `none` when it did
not (Python `(False, None)`). -/
structure VariableStorage where
  host_vars : VarMap
  script_vars : VarMap
  script_stack : List (List (String × Option Value))
  cache : VarMap

/-- Model of `VariableStorage.__init__`. -/
def VariableStorage.init (host_vars : VarMap) : VariableStorage :=
  { host_vars := host_vars
    script_vars := VarMap.empty
    script_stack := []
    cache := host_vars }

/-- The record built by `_script_stack_push`: for each name, whether a
script-local binding existed and its value.  The Python code builds a
`dict` keyed by the names; a duplicated name in `variables` produces
identical entries (the state is not mutated while pushing), so the plain
list of entries is observably equivalent to the deduplicated dictionary. -/
def stackRecord (script_vars : VarMap) (varNames : List String) :
    List (String × Option Value) :=
  varNames.map (fun v => (v, script_vars v))

/-- Model of `VariableStorage._script_stack_push` (the `varNames` parameter is the
`variables` parameter of the Python method). -/
def VariableStorage._script_stack_push (s : VariableStorage)
    (varNames : List String) : VariableStorage :=
  { s with script_stack := stackRecord s.script_vars varNames :: s.script_stack }

/-- The restoration loop of `_script_stack_pop`: walks the saved record,
restoring existing bindings and deleting ones that did not exist, and
counts the entries that required no change (`unchanged`). -/
def popRestore (m : VarMap) : List (String × Option Value) → VarMap × Nat
  | [] => (m, 0)
  | (vn, vv) :: rest =>
    match vv with
    | some value => popRestore (VarMap.set m vn value) rest
    | none =>
      match m vn with
      | some _ => popRestore (VarMap.del m vn) rest
      | none =>
        let r := popRestore m rest
        (r.1, r.2 + 1)

/-- Model of `VariableStorage._script_stack_pop`.  Returns `none` when the stack is
empty (Python raises `IndexError`).  The cache is rebuilt from the host
variables overlaid by the restored script variables unless no entry
changed. -/
def VariableStorage._script_stack_pop (s : VariableStorage) :
    Option VariableStorage :=
  match s.script_stack with
  | [] => none
  | restore :: rest =>
    let r := popRestore s.script_vars restore
    let cache := if r.2 ≠ restore.length
      then VarMap.overlay s.host_vars r.1
      else s.cache
    some { host_vars := s.host_vars
           script_vars := r.1
           script_stack := rest
           cache := cache }

/-- Model of `VariableStorage._set_host_var`. -/
def VariableStorage._set_host_var (s : VariableStorage) (name : String)
    (value : Value) : VariableStorage :=
  { s with
    host_vars := VarMap.set s.host_vars name value
    cache :=
      match s.script_vars name with
      | none => VarMap.set s.cache name value
      | some _ => s.cache }

/-- Model of `VariableStorage.__getitem__` (`none` models `KeyError`). -/
def VariableStorage.getitem (s : VariableStorage) (k : String) : Option Value :=
  s.cache k

/-- Model of `VariableStorage.__setitem__`. -/
def VariableStorage.setitem (s : VariableStorage) (k : String) (v : Value) :
    VariableStorage :=
  { s with
    script_vars := VarMap.set s.script_vars k v
    cache := VarMap.set s.cache k v }

/-- Model of `VariableStorage.__delitem__` (`none` models `KeyError`, raised when
`k` has no script-local binding, or — unreachable on states satisfying the
class invariant — when `del self._cache[k]` finds no cache entry). -/
def VariableStorage.delitem (s : VariableStorage) (k : String) :
    Option VariableStorage :=
  match s.script_vars k with
  | none => none
  | some _ =>
    let sv := VarMap.del s.script_vars k
    match s.host_vars k with
    | some hv =>
      some { s with script_vars := sv, cache := VarMap.set s.cache k hv }
    | none =>
      match s.cache k with
      | none => none
      | some _ =>
        some { s with script_vars := sv, cache := VarMap.del s.cache k }

/-- The documented class invariant of `VariableStorage`: the cache equals
the host facts overlaid by the script-local variables. -/
def VariableStorage.invariant (s : VariableStorage) : Prop :=
  s.cache = VarMap.overlay s.host_vars s.script_vars

/-! ## External collaborators: inventory, templar, ansible helpers -/

/-- The slice of the Ansible inventory the plugin manipulates: the set of
group names, the parent/child (and group/host membership) edges, and the
per-host facts set through `set_variable`. -/
structure Inventory where
  groups : List String
  children : List (String × String)
  facts : String → String → Option Value

/-- Model of `inventory.add_group(name)`. -/
def Inventory.add_group (inv : Inventory) (name : String) : Inventory :=
  if name ∈ inv.groups then inv
  else { inv with groups := inv.groups ++ [name] }

/-- Model of `inventory.add_child(group, child)`: records the membership edge. -/
def Inventory.add_child (inv : Inventory) (group child : String) : Inventory :=
  { inv with children := inv.children ++ [(group, child)] }

/-- Model of `inventory.set_variable(host, name, value)`. -/
def Inventory.set_variable (inv : Inventory) (host name : String)
    (value : Value) : Inventory :=
  { inv with
    facts := fun h n =>
      if h = host ∧ n = name then some value else inv.facts h n }

/-- The template engine boundary (`self._templar`).  `template` receives
the currently bound variable-lookup context (the merged cache view of the
`VariableStorage` assigned to `available_variables`) and may raise. -/
structure Templar where
  is_possibly_template : String → Bool
  template : VarMap → Value → Except RcError Value
  variable_start_string : String
  variable_end_string : String

/-- A word character for `ansible.constants.INVALID_VARIABLE_NAMES`
(regex `\w`, restricted to ASCII here). -/
def isWordChar (c : Char) : Bool := c.isAlphanum || c = '_'

/-- Model of `C.INVALID_VARIABLE_NAMES.findall(s)` is non-empty: the regex
`^[\d\W]|[^\w]` matches somewhere in `s`. -/
def invalidVariableNames (s : String) : Bool :=
  (match s.data with
   | [] => false
   | c :: _ => c.isDigit || !(isWordChar c)) ||
  s.data.any (fun c => !(isWordChar c))

/-- Python keywords, for `ansible.utils.vars.isidentifier`. -/
def pyKeywords : List String :=
  ["False", "None", "True", "and", "as", "assert", "async", "await",
   "break", "class", "continue", "def", "del", "elif", "else", "except",
   "finally", "for", "from", "global", "if", "import", "in", "is",
   "lambda", "nonlocal", "not", "or", "pass", "raise", "return", "try",
   "while", "with", "yield"]

/-- Model of `ansible.utils.vars.isidentifier` (ASCII identifiers, keyword-free). -/
def isidentifier (s : String) : Bool :=
  match s.data with
  | [] => false
  | c :: rest =>
    (c.isAlpha || c = '_') && rest.all (fun x => x.isAlphanum || x = '_') &&
      !(pyKeywords.contains s)

/-- Strings `ansible.module_utils.parsing.convert_bool.boolean` treats as
true. -/
def BOOLEANS_TRUE : List String := ["y", "yes", "on", "1", "true", "t"]

/-- Strings `boolean` treats as false. -/
def BOOLEANS_FALSE : List String := ["n", "no", "off", "0", "false", "f"]

/-- Model of `ansible.module_utils.parsing.convert_bool.boolean` with the default
`strict=True`: native booleans pass through, recognised strings (and the
integers 0/1, whose `str` forms are recognised) convert, anything else
raises a `TypeError` — which is not an `AnsibleError`. -/
def pyBoolean (v : Value) : Except RcError Bool :=
  match v with
  | .bool b => .ok b
  | .int n =>
    if n = 1 then .ok true
    else if n = 0 then .ok false
    else .error (.otherError "TypeError: value is not a valid boolean")
  | .str s =>
    let ls := s.toLower
    if BOOLEANS_TRUE.contains ls then .ok true
    else if BOOLEANS_FALSE.contains ls then .ok false
    else .error (.otherError "TypeError: value is not a valid boolean")
  | _ => .error (.otherError "TypeError: value is not a valid boolean")

mutual
/-- Python `repr` of a value (used for elements of a list by `str`). -/
def Value.pyRepr : Value → String
  | .str s => "\x27" ++ s ++ "\x27"
  | .bool b => if b then "True" else "False"
  | .int n => toString n
  | .null => "None"
  | .list l => "[" ++ Value.pyReprList l ++ "]"

/-- Python `repr` of the elements of a list, comma separated. -/
def Value.pyReprList : List Value → String
  | [] => ""
  | [x] => Value.pyRepr x
  | x :: xs => Value.pyRepr x ++ ", " ++ Value.pyReprList xs
end

/-- Python `str` of a value (`"%s" % value`). -/
def Value.pyStr : Value → String
  | .str s => s
  | v => Value.pyRepr v

/-! ## The instruction AST -/

/-- The fields common to every instruction, handled by `RcInstruction`:
`_condition` (the `when` clause), `_loop` paired with `_loop_var` (the
`loop`/`loop_var` clauses; `parse_loop` guarantees `_loop_var` is set
exactly when `_loop` is), `_vars` (the `vars` clause, in declaration
order), and `_executed_once` (the `run_once` tri-state: `none` = no
`run_once`, `some false` = not yet run, `some true` = already run). -/
structure RcFlow where
  condition : Option String
  loop : Option (Value × String)
  vars : List (String × Value)
  executed_once : Option Bool

/-- The save set computed at the end of `RcInstruction.parse`
(`self._save`): the `vars` keys, plus the loop variable when a loop is
present. -/
def RcFlow.save (f : RcFlow) : List String :=
  f.vars.map Prod.fst ++
    (match f.loop with
     | some (_, lv) => [lv]
     | none => [])

/-- The parsed instruction tree: one constructor per concrete
`RcInstruction` subclass, carrying the action-specific fields stored by
its `parse_action`.  The `mbt` booleans are the "may be a template" flags
returned by `parse_group_name` / computed for `set_fact`/`set_var`
names. -/
inductive Instr where
  | createGroup (f : RcFlow) (group_mbt : Bool) (group_name : String)
      (parent : Option (Bool × String)) (add_host : Bool)
  | addHost (f : RcFlow) (mbt : Bool) (group : String)
  | addChild (f : RcFlow) (group_mbt : Bool) (group_name : String)
      (child_mbt : Bool) (child_name : String)
  | setVarOrFact (f : RcFlow) (is_fact : Bool) (nmbt : Bool)
      (var_name : String) (var_value : Value)
  | stop (f : RcFlow)
  | fail (f : RcFlow) (msg : Option Value)
  | block (f : RcFlow) (blk : List Instr) (rescue : List Instr)
      (always : List Instr)

/-- The common-field record of an instruction. -/
def Instr.flow : Instr → RcFlow
  | .createGroup f _ _ _ _ => f
  | .addHost f _ _ => f
  | .addChild f _ _ _ _ => f
  | .setVarOrFact f _ _ _ _ => f
  | .stop f => f
  | .fail f _ => f
  | .block f _ _ _ => f

/-- The `self._action` tag of an instruction. -/
def Instr.action : Instr → String
  | .createGroup _ _ _ _ _ => "create_group"
  | .addHost _ _ _ => "add_host"
  | .addChild _ _ _ _ _ => "add_child"
  | .setVarOrFact _ is_fact _ _ _ => if is_fact then "set_fact" else "set_var"
  | .stop _ => "stop"
  | .fail _ _ => "fail"
  | .block _ _ _ _ => "block"

/-- Model of `self._executed_once = True` (the mutation in `run_for`). -/
def Instr.setFired : Instr → Instr
  | .createGroup f a b c d =>
    .createGroup { f with executed_once := some true } a b c d
  | .addHost f a b => .addHost { f with executed_once := some true } a b
  | .addChild f a b c d =>
    .addChild { f with executed_once := some true } a b c d
  | .setVarOrFact f a b c d =>
    .setVarOrFact { f with executed_once := some true } a b c d
  | .stop f => .stop { f with executed_once := some true }
  | .fail f a => .fail { f with executed_once := some true } a
  | .block f a b c => .block { f with executed_once := some true } a b c

/-! ## Execution helpers of `RcInstruction` -/

/-- The interpreter state threaded through execution: the per-host
variable storage and the inventory. -/
structure St where
  vars : VariableStorage
  inv : Inventory

/-- Model of `RcInstruction.compute_locals`: evaluate the `vars` definitions in
declaration order through the templar, assigning each into the variable
storage; a raised error keeps the assignments made so far. -/
def compute_locals (tp : Templar) :
    List (String × Value) → VariableStorage → Option RcError × VariableStorage
  | [], vs => (none, vs)
  | (key, value) :: rest, vs =>
    match tp.template vs.cache value with
    | .error e => (some e, vs)
    | .ok result => compute_locals tp rest (vs.setitem key result)

/-- Model of `RcInstruction.evaluate_condition`: no clause means `True`; otherwise
the clause is wrapped in the templar's expression delimiters, evaluated,
and coerced with `boolean`. -/
def evaluate_condition (tp : Templar) (condition : Option String)
    (vs : VariableStorage) : Except RcError Bool :=
  match condition with
  | none => .ok true
  | some c =>
    let template :=
      tp.variable_start_string ++ c ++ tp.variable_end_string
    match tp.template vs.cache (.str template) with
    | .error e => .error e
    | .ok rv => pyBoolean rv

/-- Model of `RcInstruction.evaluate_loop`: run the loop source through the
templar; a non-list result raises `AnsibleRuntimeError`. -/
def evaluate_loop (tp : Templar) (loop : Value) (vs : VariableStorage) :
    Except RcError (List Value) :=
  match tp.template vs.cache loop with
  | .error e => .error e
  | .ok value =>
    match value with
    | .list l => .ok l
    | _ =>
      .error (.ansibleError
        ("template " ++ loop.pyRepr ++ " did not evaluate to a list"))

/-- Model of `RcInstruction.get_templated_group`.  NOTE (faithful to the source,
line 636): after templating, the code re-checks
`isinstance(name, string_types)` on the *original field value* `name`
(always a string at this point) instead of on the templated result
`real_name`; the check can never fire, and a non-string `real_name` makes
`real_name.strip()` raise an `AttributeError`, which is not an
`AnsibleError`. -/
def get_templated_group (tp : Templar) (inv : Inventory) (action : String)
    (vs : VariableStorage) (may_be_template : Bool) (name : String)
    (must_exist : Bool) : Except RcError String :=
  let resolved : Except RcError String :=
    if may_be_template then
      match tp.template vs.cache (.str name) with
      | .error e => .error e
      | .ok real_name =>
        -- `if not isinstance(name, string_types)`: `name` is a string,
        -- so the branch is dead code; modelled by matching on `.str name`.
        match (.str name : Value) with
        | .str _ =>
          match real_name with
          | .str rn =>
            let rn := rn.trim
            if invalidVariableNames rn then
              .error (.ansibleError
                (action ++ ": " ++ rn ++ " is not a valid group name"))
            else .ok rn
          | _ =>
            -- `real_name.strip()` on a non-string value
            .error (.otherError
              "AttributeError: object has no attribute strip")
        | _ =>
          .error (.ansibleError
            (action ++ ": " ++ name ++ " did not coalesce into a string"))
    else .ok name
  match resolved with
  | .error e => .error e
  | .ok real_name =>
    if must_exist ∧ real_name ∉ inv.groups then
      .error (.ansibleError
        (action ++ ": group " ++ real_name ++ " does not exist"))
    else .ok real_name

/-- Name resolution in `RciSetVarOrFact.execute_action` (lines 834-846):
here — unlike `get_templated_group` — the templated result itself is
checked to be a string, then to be a valid identifier. -/
def resolveVarName (tp : Templar) (action : String) (vs : VariableStorage)
    (nmbt : Bool) (var_name : String) : Except RcError String :=
  if nmbt then
    match tp.template vs.cache (.str var_name) with
    | .error e => .error e
    | .ok nv =>
      match nv with
      | .str n =>
        if isidentifier n then .ok n
        else .error (.ansibleError
          (action ++ ": " ++ n ++ " is not a valid variable name"))
      | _ =>
        .error (.ansibleError
          (action ++ ": " ++ var_name ++ " did not coalesce into a string"))
  else .ok var_name

/-- The error produced when the fuel of the interpreter runs out.  It is
an artifact of the embedding, deliberately not an `AnsibleError` so that
it is never rescued. -/
def fuelError : RcError := .otherError "out of fuel"

/-- Result of `run_for` / `run_iteration` / `execute_action`: the
outcome, the (possibly mutated, e.g. `run_once`-fired) instruction
object, and the state. -/
abbrev RunResult := Outcome × Instr × St

/-- Result of `RciBlock.run_section`: the outcome, the mutated section
instruction list, and the state. -/
abbrev SectionResult := Outcome × List Instr × St

/-- The `finally:` clause of `run_for` (line 528): pop the save record,
whatever the outcome of the body was; an exhausted stack (impossible
after the push) would raise `IndexError`. -/
def finishPop (r : RunResult) : RunResult :=
  match r.2.2.vars._script_stack_pop with
  | some vs' => (r.1, r.2.1, { r.2.2 with vars := vs' })
  | none =>
    (.err (.otherError "IndexError: pop from empty list"), r.2.1, r.2.2)

mutual

/-- Model of `RcInstruction.run_for` (lines 489-528). -/
def run_for (tp : Templar) : Nat → String → Instr → St → RunResult
  | 0, _, i, st => (.err fuelError, i, st)
  | fuel + 1, host_name, i, st =>
    if i.flow.executed_once = some true then (.ok true, i, st)
    else
      let i := if i.flow.executed_once = some false then i.setFired else i
      -- Save previous loop and local variables state
      let st := { st with vars := st.vars._script_stack_push i.flow.save }
      -- finally: restore loop variable state
      finishPop
        (match i.flow.loop with
         | none => run_iteration tp fuel host_name i st
         | some (lp, lv) =>
           match evaluate_loop tp lp st.vars with
           | .error e => (.err e, i, st)
           | .ok items => run_loop_items tp fuel host_name i lv items st)

/-- The `for value in ...` loop of `run_for` (lines 517-525): bind the
loop variable, run one iteration, stop on `False` or on an error. -/
def run_loop_items (tp : Templar) :
    Nat → String → Instr → String → List Value → St → RunResult
  | 0, _, i, _, _, st => (.err fuelError, i, st)
  | _ + 1, _, i, _, [], st => (.ok true, i, st)
  | fuel + 1, host_name, i, lv, value :: rest, st =>
    let st := { st with vars := st.vars.setitem lv value }
    match run_iteration tp fuel host_name i st with
    | (.ok true, i', st') => run_loop_items tp fuel host_name i' lv rest st'
    | r => r

/-- Model of `RcInstruction.run_iteration` (lines 530-551). -/
def run_iteration (tp : Templar) : Nat → String → Instr → St → RunResult
  | 0, _, i, st => (.err fuelError, i, st)
  | fuel + 1, host_name, i, st =>
    match compute_locals tp i.flow.vars st.vars with
    | (some e, vs) => (.err e, i, { st with vars := vs })
    | (none, vs) =>
      let st := { st with vars := vs }
      match evaluate_condition tp i.flow.condition st.vars with
      | .error e => (.err e, i, st)
      | .ok cond =>
        if cond then execute_action tp fuel host_name i st
        else (.ok true, i, st)

/-- Model of `execute_action`, dispatched over the concrete instruction classes. -/
def execute_action (tp : Templar) : Nat → String → Instr → St → RunResult
  | 0, _, i, st => (.err fuelError, i, st)
  | fuel + 1, host_name, i, st =>
    match i with
    | .createGroup _ group_mbt group_name parent add_host =>
      -- `RciCreateGroup.execute_action` (lines 703-722)
      let parentRes : Except RcError (Option String) :=
        match parent with
        | some (pmbt, pname) =>
          match get_templated_group tp st.inv i.action st.vars pmbt pname
              true with
          | .error e => .error e
          | .ok p => .ok (some p)
        | none => .ok none
      match parentRes with
      | .error e => (.err e, i, st)
      | .ok parentName =>
        match get_templated_group tp st.inv i.action st.vars group_mbt
            group_name false with
        | .error e => (.err e, i, st)
        | .ok name =>
          let inv := st.inv.add_group name
          let inv :=
            match parentName with
            | some p => inv.add_child p name
            | none => inv
          let inv := if add_host then inv.add_child name host_name else inv
          (.ok true, i, { st with inv := inv })
    | .addHost _ mbt group =>
      -- `RciAddHost.execute_action` (lines 740-747)
      match get_templated_group tp st.inv i.action st.vars mbt group
          true with
      | .error e => (.err e, i, st)
      | .ok name =>
        (.ok true, i, { st with inv := st.inv.add_child name host_name })
    | .addChild _ group_mbt group_name child_mbt child_name =>
      -- `RciAddChild.execute_action` (lines 773-784)
      match get_templated_group tp st.inv i.action st.vars group_mbt
          group_name true with
      | .error e => (.err e, i, st)
      | .ok group =>
        match get_templated_group tp st.inv i.action st.vars child_mbt
            child_name true with
        | .error e => (.err e, i, st)
        | .ok child =>
          (.ok true, i, { st with inv := st.inv.add_child group child })
    | .setVarOrFact _ is_fact nmbt var_name var_value =>
      -- `RciSetVarOrFact.execute_action` (lines 827-857)
      match resolveVarName tp i.action st.vars nmbt var_name with
      | .error e => (.err e, i, st)
      | .ok name =>
        match tp.template st.vars.cache var_value with
        | .error e => (.err e, i, st)
        | .ok value =>
          if is_fact then
            (.ok true, i,
             { vars := st.vars._set_host_var name value
               inv := st.inv.set_variable host_name name value })
          else
            (.ok true, i, { st with vars := st.vars.setitem name value })
    | .stop _ =>
      -- `RciStop.execute_action` (lines 869-871)
      (.ok false, i, st)
    | .fail _ msg =>
      -- `RciFail.execute_action` (lines 890-897)
      match msg with
      | none =>
        (.err (.ansibleError ("fail requested (" ++ host_name ++ ")")),
         i, st)
      | some m =>
        match tp.template st.vars.cache m with
        | .error e => (.err e, i, st)
        | .ok message => (.err (.ansibleError message.pyStr), i, st)
    | .block f blk rescue always =>
      -- `RciBlock.execute_action` (lines 984-999)
      let inner : Outcome × List Instr × List Instr × St :=
        match run_section tp fuel host_name blk st with
        | (.ok b, blk', stB) => (.ok b, blk', rescue, stB)
        | (.err e, blk', stB) =>
          match e with
          | .ansibleError m =>
            if rescue.isEmpty then (.err e, blk', rescue, stB)
            else
              -- `variables["reconstructed_error"] = str(e)`
              let stB :=
                { stB with
                  vars := stB.vars.setitem "reconstructed_error" (.str m) }
              match run_section tp fuel host_name rescue stB with
              | (o2, rescue', st2) => (o2, blk', rescue', st2)
          | .otherError _ =>
            -- `except AnsibleError` does not catch other exceptions
            (.err e, blk', rescue, stB)
      -- finally: run the `always` instructions; their return value is
      -- discarded (line 999), but an error they raise propagates.
      match run_section tp fuel host_name always inner.2.2.2 with
      | (.ok _, always', stA) =>
        (inner.1, .block f inner.2.1 inner.2.2.1 always', stA)
      | (.err e2, always', stA) =>
        (.err e2, .block f inner.2.1 inner.2.2.1 always', stA)

/-- Model of `RciBlock.run_section` (lines 1001-1018). -/
def run_section (tp : Templar) :
    Nat → String → List Instr → St → SectionResult
  | 0, _, sect, st => (.err fuelError, sect, st)
  | _ + 1, _, [], st => (.ok true, [], st)
  | fuel + 1, host_name, instruction :: rest, st =>
    match run_for tp fuel host_name instruction st with
    | (.ok true, i', st') =>
      match run_section tp fuel host_name rest st' with
      | (o, rest', st'') => (o, i' :: rest', st'')
    | (.ok false, i', st') => (.ok false, i' :: rest, st')
    | (.err e, i', st') => (.err e, i' :: rest, st')

end

/-! ## Concrete instances used by the witnesses -/

/-- A templar whose engine just echoes values (no template syntax used):
the behaviour of the real engine on non-template inputs. -/
def tpEcho : Templar :=
  { is_possibly_template := fun _ => false
    template := fun _ v => .ok v
    variable_start_string := "[["
    variable_end_string := "]]" }

/-- A templar that claims everything is a template and evaluates every
template to the empty list (a non-string result). -/
def tpList : Templar :=
  { is_possibly_template := fun _ => true
    template := fun _ _ => .ok (.list [])
    variable_start_string := "[["
    variable_end_string := "]]" }

/-- An instruction record with no `when`, `loop`, `vars` or `run_once`. -/
def plainFlow : RcFlow :=
  { condition := none, loop := none, vars := [], executed_once := none }

/-- A flow carrying a literal-list loop over `["a", "b"]` with loop
variable `n`. -/
def loopFlow : RcFlow :=
  { condition := none
    loop := some (.list [.str "a", .str "b"], "n")
    vars := []
    executed_once := none }

/-- The empty inventory. -/
def inv0 : Inventory := { groups := [], children := [], facts := fun _ _ => none }

/-- An initial state over an empty host-fact mapping. -/
def st0 : St := { vars := VariableStorage.init VarMap.empty, inv := inv0 }

/-- The spec scenario block: `{action: block, block: [{action: fail}],
rescue: [{action: set_fact, name: "r", value: "ok"}]}`. -/
def blockFailRescue : Instr :=
  .block plainFlow
    [.fail plainFlow none]
    [.setVarOrFact plainFlow true false "r" (.str "ok")]
    []

/-- A flow with `run_once` parsed and not yet fired. -/
def runOnceFlow : RcFlow :=
  { condition := none, loop := none, vars := [], executed_once := some false }

/-- An instruction with `run_once` enabled: `set_var y = "1"`. -/
def instrRunOnce : Instr := .setVarOrFact runOnceFlow false false "y" (.str "1")

/-- A flow with both a `vars` clause and a loop, whose save set is
`["x", "n"]`. -/
def loopVarsFlow : RcFlow :=
  { condition := none
    loop := some (.list [.str "a"], "n")
    vars := [("x", .str "1")]
    executed_once := none }

/-- A looping `set_var` instruction with save set `["x", "n"]`. -/
def instrLoopVars : Instr :=
  .setVarOrFact loopVarsFlow false false "y" (.str "2")

/-- A `stop` instruction under a two-item loop: its first iteration
interrupts, so the second item must never run. -/
def instrStopLoop : Instr := .stop loopFlow

/-- A block whose body interrupts (`stop`) and that carries a rescue
section; the rescue must not run for a plain interrupt. -/
def blockStopRescue : Instr :=
  .block plainFlow
    [.stop plainFlow]
    [.setVarOrFact plainFlow false false "r2" (.str "x")]
    []

/-- The rescue section of the spec scenario block. -/
def rescueSection : List Instr :=
  [.setVarOrFact plainFlow true false "r" (.str "ok")]

/-- The state on which the scenario's rescue section runs: the initial
state with `reconstructed_error` bound to the default `fail` message. -/
def stResc : St :=
  { st0 with
    vars := st0.vars.setitem "reconstructed_error"
      (.str "fail requested (h1)") }

/-- The initial state with an empty save record pushed (the state seen
by the body of a plain block run from `st0`). -/
def st0push : St := { st0 with vars := st0.vars._script_stack_push [] }

/-- A flow looping over a template that does not evaluate to a list. -/
def badLoopFlow : RcFlow :=
  { condition := none
    loop := some (.str "x", "n")
    vars := []
    executed_once := none }

/-- A `stop` instruction whose loop source evaluates to a string. -/
def instrBadLoop : Instr := .stop badLoopFlow

/-- The state reached inside `instrStopLoop` when its first iteration
runs: save record for `n` pushed, `n` bound to `"a"`. -/
def stC6 : St :=
  { st0 with
    vars := (st0.vars._script_stack_push ["n"]).setitem "n" (.str "a") }

/-- The state on which the scenario's rescue section runs when the block
is entered through `run_for` (one empty save record pushed). -/
def stRescP : St :=
  { st0push with
    vars := st0push.vars.setitem "reconstructed_error"
      (.str "fail requested (h1)") }

/-- A host-fact mapping holding a single fact `k = "hostval"`. -/
def hostMapK : VarMap :=
  fun x => if x = "k" then some (.str "hostval") else none

/-- A storage in which the script-local `k = "local"` shadows the host
fact `k = "hostval"`. -/
def shadowedStorage : VariableStorage :=
  (VariableStorage.init hostMapK).setitem "k" (.str "local")

/-! ## Helper lemmas about the variable storage -/

theorem VarMap.set_same (m : VarMap) (k : String) (v : Value) :
    VarMap.set m k v k = some v := by
  simp [VarMap.set]

theorem VarMap.set_other (m : VarMap) (k x : String) (v : Value)
    (h : x ≠ k) : VarMap.set m k v x = m x := by
  simp [VarMap.set, h]

theorem VarMap.del_same (m : VarMap) (k : String) :
    VarMap.del m k k = none := by
  simp [VarMap.del]

theorem VarMap.del_other (m : VarMap) (k x : String) (h : x ≠ k) :
    VarMap.del m k x = m x := by
  simp [VarMap.del, h]

/-- Unfolding of a save record on a cons cell. -/
theorem stackRecord_cons (m : VarMap) (v : String) (rest : List String) :
    stackRecord m (v :: rest) = (v, m v) :: stackRecord m rest := rfl

/-- Keys of a pushed save record are exactly the pushed names. -/
theorem stackRecord_keys (m : VarMap) (names : List String) :
    (stackRecord m names).map Prod.fst = names := by
  induction names with
  | nil => rfl
  | cons v rest ih => rw [stackRecord_cons, List.map_cons, ih]

/-- Restoration ignores names that have no entry in the record. -/
theorem popRestore_not_mem (l : List (String × Option Value)) :
    ∀ m x, x ∉ l.map Prod.fst → (popRestore m l).1 x = m x := by
  induction l with
  | nil => intro m x _; rfl
  | cons e rest ih =>
    intro m x hx
    obtain ⟨vn, vv⟩ := e
    simp only [List.map_cons, List.mem_cons] at hx
    push_neg at hx
    obtain ⟨hne, hrest⟩ := hx
    cases vv with
    | some value =>
      simp only [popRestore]
      rw [ih _ _ hrest, VarMap.set_other _ _ _ _ hne]
    | none =>
      simp only [popRestore]
      cases hm : m vn with
      | some w => rw [ih _ _ hrest, VarMap.del_other _ _ _ hne]
      | none => exact ih _ _ hrest

/-- Restoring the record pushed for `names` from the snapshot `m0` puts
every name of `names` back to its `m0` binding, whatever happened to the
script variables in between. -/
theorem popRestore_stackRecord_mem (names : List String) (m0 : VarMap) :
    ∀ m name, name ∈ names →
      (popRestore m (stackRecord m0 names)).1 name = m0 name := by
  induction names with
  | nil => intro m name h; cases h
  | cons v rest ih =>
    intro m name hmem
    rw [stackRecord_cons]
    by_cases hr : name ∈ rest
    · -- handled by the tail of the record, whatever the head did
      cases h0 : m0 v with
      | some value =>
        simpa [popRestore, h0] using ih _ name hr
      | none =>
        cases hm : m v with
        | some w => simpa [popRestore, h0, hm] using ih _ name hr
        | none => simpa [popRestore, h0, hm] using ih _ name hr
    · -- then name = v and v does not recur: the head entry decides it
      have hv : name = v := by
        rcases List.mem_cons.mp hmem with h | h
        · exact h
        · exact absurd h hr
      subst hv
      have hk : name ∉ (stackRecord m0 rest).map Prod.fst := by
        rw [stackRecord_keys]; exact hr
      cases h0 : m0 name with
      | some value =>
        simp only [popRestore, h0]
        rw [popRestore_not_mem _ _ _ hk, VarMap.set_same]
      | none =>
        cases hm : m name with
        | some w =>
          simp only [popRestore, h0, hm]
          rw [popRestore_not_mem _ _ _ hk, VarMap.del_same]
        | none =>
          simp only [popRestore, h0, hm]
          rw [popRestore_not_mem _ _ _ hk, hm]

/-- The `unchanged` counter never exceeds the record length. -/
theorem popRestore_count_le (l : List (String × Option Value)) :
    ∀ m, (popRestore m l).2 ≤ l.length := by
  induction l with
  | nil => intro m; simp [popRestore]
  | cons e rest ih =>
    intro m
    obtain ⟨vn, vv⟩ := e
    cases vv with
    | some value =>
      simp only [popRestore, List.length_cons]
      exact le_trans (ih _) (Nat.le_succ _)
    | none =>
      cases hm : m vn with
      | some w =>
        simp only [popRestore, hm, List.length_cons]
        exact le_trans (ih _) (Nat.le_succ _)
      | none =>
        simp only [popRestore, hm, List.length_cons]
        exact Nat.succ_le_succ (ih _)

/-- If no entry required a change, the script variables are untouched. -/
theorem popRestore_all_unchanged (l : List (String × Option Value)) :
    ∀ m, (popRestore m l).2 = l.length → (popRestore m l).1 = m := by
  induction l with
  | nil => intro m _; rfl
  | cons e rest ih =>
    intro m hlen
    obtain ⟨vn, vv⟩ := e
    cases vv with
    | some value =>
      exfalso
      simp only [popRestore, List.length_cons] at hlen
      have := popRestore_count_le rest (VarMap.set m vn value)
      omega
    | none =>
      cases hm : m vn with
      | some w =>
        exfalso
        simp only [popRestore, hm, List.length_cons] at hlen
        have := popRestore_count_le rest (VarMap.del m vn)
        omega
      | none =>
        simp only [popRestore, hm, List.length_cons] at hlen
        simp only [popRestore, hm]
        exact ih m (by omega)

/-- Shape of a successful pop: the top record is restored and removed. -/
theorem pop_of_cons (s : VariableStorage) (r : List (String × Option Value))
    (rest : List (List (String × Option Value)))
    (h : s.script_stack = r :: rest) :
    s._script_stack_pop = some
      { host_vars := s.host_vars
        script_vars := (popRestore s.script_vars r).1
        script_stack := rest
        cache := if (popRestore s.script_vars r).2 ≠ r.length
          then VarMap.overlay s.host_vars (popRestore s.script_vars r).1
          else s.cache } := by
  unfold VariableStorage._script_stack_pop
  rw [h]

theorem VarMap.overlay_some (h sc : VarMap) (k : String) (v : Value)
    (hk : sc k = some v) : VarMap.overlay h sc k = some v := by
  unfold VarMap.overlay; rw [hk]

theorem VarMap.overlay_none (h sc : VarMap) (k : String)
    (hk : sc k = none) : VarMap.overlay h sc k = h k := by
  unfold VarMap.overlay; rw [hk]

/-- A fresh storage satisfies the cache invariant. -/
theorem invariant_init (h : VarMap) : (VariableStorage.init h).invariant := by
  unfold VariableStorage.invariant VariableStorage.init
  funext k
  exact (VarMap.overlay_none h VarMap.empty k rfl).symm

/-- Item assignment preserves the cache invariant. -/
theorem invariant_setitem (s : VariableStorage) (k : String) (v : Value)
    (hinv : s.invariant) : (s.setitem k v).invariant := by
  unfold VariableStorage.invariant at *
  unfold VariableStorage.setitem
  funext x
  dsimp only
  by_cases hx : x = k
  · subst hx
    rw [VarMap.set_same,
      VarMap.overlay_some _ _ _ v (VarMap.set_same s.script_vars x v)]
  · rw [VarMap.set_other _ _ _ _ hx, hinv]
    cases hsx : s.script_vars x with
    | some w =>
      rw [VarMap.overlay_some _ _ _ _ hsx,
        VarMap.overlay_some _ _ _ w
          (by rw [VarMap.set_other _ _ _ _ hx]; exact hsx)]
    | none =>
      rw [VarMap.overlay_none _ _ _ hsx,
        VarMap.overlay_none _ _ _
          (by rw [VarMap.set_other _ _ _ _ hx]; exact hsx)]

/-- Item deletion preserves the cache invariant. -/
theorem invariant_delitem (s : VariableStorage) (k : String)
    (s' : VariableStorage) (hinv : s.invariant)
    (hdel : s.delitem k = some s') : s'.invariant := by
  unfold VariableStorage.delitem at hdel
  cases hsk : s.script_vars k with
  | none => rw [hsk] at hdel; cases hdel
  | some v =>
    rw [hsk] at hdel
    cases hhk : s.host_vars k with
    | some hv =>
      rw [hhk] at hdel
      injection hdel with hdel
      subst hdel
      unfold VariableStorage.invariant at *
      funext x
      dsimp only
      by_cases hx : x = k
      · subst hx
        rw [VarMap.set_same,
          (VarMap.overlay_none _ _ x (VarMap.del_same s.script_vars x)), hhk]
      · rw [VarMap.set_other _ _ _ _ hx, hinv]
        cases hsx : s.script_vars x with
        | some w =>
          rw [VarMap.overlay_some _ _ _ _ hsx,
            VarMap.overlay_some _ _ _ w
              (by rw [VarMap.del_other _ _ _ hx]; exact hsx)]
        | none =>
          rw [VarMap.overlay_none _ _ _ hsx,
            VarMap.overlay_none _ _ _
              (by rw [VarMap.del_other _ _ _ hx]; exact hsx)]
    | none =>
      rw [hhk] at hdel
      cases hck : s.cache k with
      | none =>
        exfalso
        have hsome : s.cache k = some v := by
          rw [hinv]; exact VarMap.overlay_some _ _ _ _ hsk
        rw [hck] at hsome; cases hsome
      | some c =>
        rw [hck] at hdel
        injection hdel with hdel
        subst hdel
        unfold VariableStorage.invariant at *
        funext x
        dsimp only
        by_cases hx : x = k
        · subst hx
          rw [VarMap.del_same,
            VarMap.overlay_none _ _ x (VarMap.del_same s.script_vars x), hhk]
        · rw [VarMap.del_other _ _ _ hx, hinv]
          cases hsx : s.script_vars x with
          | some w =>
            rw [VarMap.overlay_some _ _ _ _ hsx,
              VarMap.overlay_some _ _ _ w
                (by rw [VarMap.del_other _ _ _ hx]; exact hsx)]
          | none =>
            rw [VarMap.overlay_none _ _ _ hsx,
              VarMap.overlay_none _ _ _
                (by rw [VarMap.del_other _ _ _ hx]; exact hsx)]

/-- Setting a host variable preserves the cache invariant. -/
theorem invariant_set_host_var (s : VariableStorage) (name : String)
    (v : Value) (hinv : s.invariant) : (s._set_host_var name v).invariant := by
  unfold VariableStorage.invariant at *
  unfold VariableStorage._set_host_var
  funext x
  cases hsn : s.script_vars name with
  | none =>
    simp only [hsn]
    by_cases hx : x = name
    · subst hx
      rw [VarMap.set_same, VarMap.overlay_none _ _ _ hsn, VarMap.set_same]
    · rw [VarMap.set_other _ _ _ _ hx, hinv]
      cases hsx : s.script_vars x with
      | some w =>
        rw [VarMap.overlay_some _ _ _ _ hsx, VarMap.overlay_some _ _ _ _ hsx]
      | none =>
        rw [VarMap.overlay_none _ _ _ hsx, VarMap.overlay_none _ _ _ hsx,
          VarMap.set_other _ _ _ _ hx]
  | some w0 =>
    simp only [hsn]
    rw [hinv]
    by_cases hx : x = name
    · subst hx
      rw [VarMap.overlay_some _ _ _ _ hsn, VarMap.overlay_some _ _ _ _ hsn]
    · cases hsx : s.script_vars x with
      | some w =>
        rw [VarMap.overlay_some _ _ _ _ hsx, VarMap.overlay_some _ _ _ _ hsx]
      | none =>
        rw [VarMap.overlay_none _ _ _ hsx, VarMap.overlay_none _ _ _ hsx,
          VarMap.set_other _ _ _ _ hx]

/-- Pushing a save record preserves the cache invariant. -/
theorem invariant_push (s : VariableStorage) (names : List String)
    (hinv : s.invariant) : (s._script_stack_push names).invariant := by
  unfold VariableStorage.invariant at *
  exact hinv

/-- Popping a save record preserves the cache invariant. -/
theorem invariant_pop (s : VariableStorage) (s' : VariableStorage)
    (hinv : s.invariant) (hpop : s._script_stack_pop = some s') :
    s'.invariant := by
  unfold VariableStorage._script_stack_pop at hpop
  cases hstk : s.script_stack with
  | nil => rw [hstk] at hpop; cases hpop
  | cons r rest =>
    rw [hstk] at hpop
    simp only at hpop
    injection hpop with hpop
    subst hpop
    unfold VariableStorage.invariant at *
    dsimp only
    by_cases hc : (popRestore s.script_vars r).2 ≠ r.length
    · rw [if_pos hc]
    · rw [if_neg hc]
      push_neg at hc
      rw [popRestore_all_unchanged r s.script_vars hc]
      exact hinv

/-- Restoring a record snapshotted from the current script variables is
the identity on the script variables. -/
theorem popRestore_stackRecord_self (sv : VarMap) (names : List String) :
    (popRestore sv (stackRecord sv names)).1 = sv := by
  funext x
  by_cases hx : x ∈ names
  · exact popRestore_stackRecord_mem names sv sv x hx
  · exact popRestore_not_mem _ _ _ (by rw [stackRecord_keys]; exact hx)

/-! ## Claims -/

/-- C4: for every variable storage state (of the class, i.e. satisfying
the cache invariant) and every set of variable names, pushing a save
record for those names and then immediately popping it, with no mutation
in between, restores the storage — in particular its cache, script-local
mapping and host-fact mapping — exactly. -/
theorem C4_push_pop_roundtrip (s : VariableStorage) (names : List String)
    (hinv : s.invariant) :
    (s._script_stack_push names)._script_stack_pop = some s := by
  obtain ⟨hv, sv, stk, ca⟩ := s
  unfold VariableStorage.invariant at hinv
  dsimp only at hinv
  have hpop := pop_of_cons
    (VariableStorage._script_stack_push ⟨hv, sv, stk, ca⟩ names)
    (stackRecord sv names) stk rfl
  rw [hpop]
  simp only [VariableStorage._script_stack_push]
  rw [popRestore_stackRecord_self sv names]
  rw [← hinv]
  simp only [ite_self]

/-- Witness for C4 at a concrete storage: a fresh storage over a host
fact `k = "hostval"`, pushing the save set `["x", "k"]`. -/
theorem C4_push_pop_roundtrip_witness :
    ((VariableStorage.init hostMapK)._script_stack_push
        ["x", "k"])._script_stack_pop = some (VariableStorage.init hostMapK) :=
  C4_push_pop_roundtrip (VariableStorage.init hostMapK) ["x", "k"]
    (invariant_init hostMapK)

/-- C5: every variable storage operation — item set, item delete,
host-variable set, stack push, stack pop — preserves the invariant that
the cache mapping equals the host-fact mapping overlaid by the
script-local mapping, script-locals taking precedence. -/
theorem C5_operations_preserve_invariant :
    (∀ (s : VariableStorage) (k : String) (v : Value),
       s.invariant → (s.setitem k v).invariant) ∧
    (∀ (s : VariableStorage) (k : String) (s' : VariableStorage),
       s.invariant → s.delitem k = some s' → s'.invariant) ∧
    (∀ (s : VariableStorage) (name : String) (v : Value),
       s.invariant → (s._set_host_var name v).invariant) ∧
    (∀ (s : VariableStorage) (names : List String),
       s.invariant → (s._script_stack_push names).invariant) ∧
    (∀ (s s' : VariableStorage),
       s.invariant → s._script_stack_pop = some s' → s'.invariant) :=
  ⟨invariant_setitem,
   fun s k s' hinv hdel => invariant_delitem s k s' hinv hdel,
   invariant_set_host_var,
   invariant_push,
   fun s s' hinv hpop => invariant_pop s s' hinv hpop⟩

/-- Witness for C5: each of the five operations applied to concrete
storages satisfying the invariant. -/
theorem C5_operations_preserve_invariant_witness :
    ((VariableStorage.init hostMapK).setitem "x" (.str "1")).invariant ∧
    (shadowedStorage.delitem "k" = some
        { shadowedStorage with
          script_vars := VarMap.del shadowedStorage.script_vars "k"
          cache := VarMap.set shadowedStorage.cache "k" (.str "hostval") } →
      VariableStorage.invariant
        { shadowedStorage with
          script_vars := VarMap.del shadowedStorage.script_vars "k"
          cache := VarMap.set shadowedStorage.cache "k" (.str "hostval") }) ∧
    ((VariableStorage.init hostMapK)._set_host_var "y" (.str "2")).invariant ∧
    ((VariableStorage.init hostMapK)._script_stack_push ["x"]).invariant ∧
    (((VariableStorage.init hostMapK)._script_stack_push
        ["x"])._script_stack_pop = some (VariableStorage.init hostMapK) →
      (VariableStorage.init hostMapK).invariant) := by
  refine ⟨?_, ?_, ?_, ?_, ?_⟩
  · exact C5_operations_preserve_invariant.1 _ "x" (.str "1")
      (invariant_init hostMapK)
  · intro hdel
    exact C5_operations_preserve_invariant.2.1 shadowedStorage "k" _
      (invariant_setitem _ "k" (.str "local") (invariant_init hostMapK)) hdel
  · exact C5_operations_preserve_invariant.2.2.1 _ "y" (.str "2")
      (invariant_init hostMapK)
  · exact C5_operations_preserve_invariant.2.2.2.1 _ ["x"]
      (invariant_init hostMapK)
  · intro hpop
    exact C5_operations_preserve_invariant.2.2.2.2 _ _
      (invariant_push _ ["x"] (invariant_init hostMapK)) hpop

/-- C9: deleting a script-local variable that shadows a host fact
restores visibility of the host fact: after the delete, looking the key
up in the storage yields exactly the host-fact mapping's value — in
particular, the key disappears from the visible view when there is no
same-named host fact. -/
theorem C9_delete_restores_host_fact (s : VariableStorage) (k : String)
    (v : Value) (hinv : s.invariant) (hsh : s.script_vars k = some v) :
    ∃ s', s.delitem k = some s' ∧ s'.getitem k = s.host_vars k := by
  unfold VariableStorage.delitem
  rw [hsh]
  cases hhk : s.host_vars k with
  | some hv =>
    refine ⟨_, rfl, ?_⟩
    unfold VariableStorage.getitem
    dsimp only
    rw [VarMap.set_same]
  | none =>
    have hck : s.cache k = some v := by
      rw [hinv]; exact VarMap.overlay_some _ _ _ _ hsh
    rw [hck]
    refine ⟨_, rfl, ?_⟩
    unfold VariableStorage.getitem
    dsimp only
    rw [VarMap.del_same]

/-- Witness for C9: deleting the shadowing local `k = "local"` over the
host fact `k = "hostval"` makes the host fact visible again. -/
theorem C9_delete_restores_host_fact_witness :
    ∃ s', shadowedStorage.delitem "k" = some s' ∧
      s'.getitem "k" = shadowedStorage.host_vars "k" :=
  C9_delete_restores_host_fact shadowedStorage "k" (.str "local")
    (invariant_setitem _ "k" (.str "local") (invariant_init hostMapK)) rfl

/-- Execution never changes the control-flow record (`when`, `loop`,
`vars`, `run_once` state) of the instruction it runs: `run_iteration`,
`execute_action` and the loop runner return an instruction with the same
flow fields (only nested instructions of a block can change). -/
theorem interp_preserves_flow (tp : Templar) : ∀ fuel : Nat,
    (∀ host i st,
        ((run_iteration tp fuel host i st).2.1).flow = i.flow) ∧
    (∀ host i st,
        ((execute_action tp fuel host i st).2.1).flow = i.flow) ∧
    (∀ host i lv items st,
        ((run_loop_items tp fuel host i lv items st).2.1).flow = i.flow) := by
  intro fuel
  induction fuel with
  | zero => exact ⟨fun _ _ _ => rfl, fun _ _ _ => rfl, fun _ _ _ _ _ => rfl⟩
  | succ n ih =>
    obtain ⟨ihri, ihea, ihrl⟩ := ih
    have hea : ∀ host i st,
        ((execute_action tp (n + 1) host i st).2.1).flow = i.flow := by
      intro host i st
      cases i with
      | createGroup f gm gn p ah =>
        simp only [execute_action]
        repeat' split
        all_goals rfl
      | addHost f mbt g =>
        simp only [execute_action]
        repeat' split
        all_goals rfl
      | addChild f gm gn cm cn =>
        simp only [execute_action]
        repeat' split
        all_goals rfl
      | setVarOrFact f isf nmbt vn vv =>
        simp only [execute_action]
        repeat' split
        all_goals rfl
      | stop f => rfl
      | fail f msg =>
        simp only [execute_action]
        repeat' split
        all_goals rfl
      | block f blk rsc alw =>
        simp only [execute_action]
        repeat' split
        all_goals rfl
    have hri : ∀ host i st,
        ((run_iteration tp (n + 1) host i st).2.1).flow = i.flow := by
      intro host i st
      simp only [run_iteration]
      split
      · rfl
      · split
        · rfl
        · split
          · exact ihea host i _
          · rfl
    have hrl : ∀ host i lv items st,
        ((run_loop_items tp (n + 1) host i lv items st).2.1).flow
          = i.flow := by
      intro host i lv items st
      cases items with
      | nil => rfl
      | cons v rest =>
        simp only [run_loop_items]
        rcases h : run_iteration tp n host i
            { st with vars := st.vars.setitem lv v } with ⟨o, i', st''⟩
        have hflow : i'.flow = i.flow := by
          have := ihri host i { st with vars := st.vars.setitem lv v }
          rw [h] at this
          exact this
        match o with
        | .ok true =>
          simp only
          rw [ihrl host i' lv rest st'', hflow]
        | .ok false => exact hflow
        | .err e => exact hflow
    exact ⟨hri, hea, hrl⟩

/-- Shape of the `finally` pop when the body left the pushed record on
top of the stack. -/
theorem finishPop_eq (r : RunResult) (rec : List (String × Option Value))
    (S : List (List (String × Option Value)))
    (h : r.2.2.vars.script_stack = rec :: S) :
    finishPop r =
      (r.1, r.2.1,
       { r.2.2 with vars :=
          { host_vars := r.2.2.vars.host_vars
            script_vars := (popRestore r.2.2.vars.script_vars rec).1
            script_stack := S
            cache := if (popRestore r.2.2.vars.script_vars rec).2 ≠ rec.length
              then VarMap.overlay r.2.2.vars.host_vars
                (popRestore r.2.2.vars.script_vars rec).1
              else r.2.2.vars.cache } }) := by
  unfold finishPop
  rw [pop_of_cons r.2.2.vars rec S h]

/-- The `finally` pop removes exactly the record the body left on top. -/
theorem finishPop_stack (r : RunResult) (rec : List (String × Option Value))
    (S : List (List (String × Option Value)))
    (h : r.2.2.vars.script_stack = rec :: S) :
    ((finishPop r).2.2).vars.script_stack = S := by
  rw [finishPop_eq r rec S h]

/-- Assigning an item does not touch the save stack. -/
theorem setitem_stack (s : VariableStorage) (k : String) (v : Value) :
    (s.setitem k v).script_stack = s.script_stack := rfl

/-- Setting a host variable does not touch the save stack. -/
theorem set_host_var_stack (s : VariableStorage) (k : String) (v : Value) :
    (s._set_host_var k v).script_stack = s.script_stack := rfl

/-- Computing the `vars` clause does not touch the save stack. -/
theorem compute_locals_stack (tp : Templar) :
    ∀ (l : List (String × Value)) (vs : VariableStorage),
      ((compute_locals tp l vs).2).script_stack = vs.script_stack := by
  intro l
  induction l with
  | nil => intro vs; rfl
  | cons kv rest ih =>
    intro vs
    obtain ⟨k, v⟩ := kv
    simp only [compute_locals]
    cases tp.template vs.cache v with
    | error e => rfl
    | ok result => rw [ih (vs.setitem k result)]; rfl

/-- Every interpreter entry point leaves the save stack exactly as it
found it — on normal returns, on interrupts and on raised errors alike
(`run_for` pushes one record and its `finally` clause pops exactly that
record). -/
theorem interp_preserves_stack (tp : Templar) : ∀ fuel : Nat,
    (∀ host i st,
        ((run_for tp fuel host i st).2.2).vars.script_stack
          = st.vars.script_stack) ∧
    (∀ host i lv items st,
        ((run_loop_items tp fuel host i lv items st).2.2).vars.script_stack
          = st.vars.script_stack) ∧
    (∀ host i st,
        ((run_iteration tp fuel host i st).2.2).vars.script_stack
          = st.vars.script_stack) ∧
    (∀ host i st,
        ((execute_action tp fuel host i st).2.2).vars.script_stack
          = st.vars.script_stack) ∧
    (∀ host sect st,
        ((run_section tp fuel host sect st).2.2).vars.script_stack
          = st.vars.script_stack) := by
  intro fuel
  induction fuel with
  | zero =>
    exact ⟨fun _ _ _ => rfl, fun _ _ _ _ _ => rfl, fun _ _ _ => rfl,
      fun _ _ _ => rfl, fun _ _ _ => rfl⟩
  | succ n ih =>
    obtain ⟨ihrf, ihrl, ihri, ihea, ihrs⟩ := ih
    have hea : ∀ host i st,
        ((execute_action tp (n + 1) host i st).2.2).vars.script_stack
          = st.vars.script_stack := by
      intro host i st
      cases i with
      | createGroup f gm gn p ah =>
        simp only [execute_action]
        repeat' split
        all_goals rfl
      | addHost f mbt g =>
        simp only [execute_action]
        repeat' split
        all_goals rfl
      | addChild f gm gn cm cn =>
        simp only [execute_action]
        repeat' split
        all_goals rfl
      | setVarOrFact f isf nmbt vn vv =>
        simp only [execute_action]
        repeat' split
        all_goals rfl
      | stop f => rfl
      | fail f msg =>
        simp only [execute_action]
        repeat' split
        all_goals rfl
      | block f blk rsc alw =>
        simp only [execute_action]
        rcases h1 : run_section tp n host blk st with ⟨o1, blk', st1⟩
        have hs1 : st1.vars.script_stack = st.vars.script_stack := by
          have := ihrs host blk st; rw [h1] at this; exact this
        cases o1 with
        | ok b =>
          simp only
          rcases h2 : run_section tp n host alw st1 with ⟨o2, alw', st2⟩
          have hs2 : st2.vars.script_stack = st1.vars.script_stack := by
            have := ihrs host alw st1; rw [h2] at this; exact this
          cases o2 with
          | ok b2 => simp only; rw [hs2, hs1]
          | err e2 => simp only; rw [hs2, hs1]
        | err e =>
          cases e with
          | ansibleError m =>
            simp only
            by_cases hre : rsc.isEmpty
            · rw [if_pos hre]
              simp only
              rcases h2 : run_section tp n host alw st1 with ⟨o2, alw', st2⟩
              have hs2 : st2.vars.script_stack = st1.vars.script_stack := by
                have := ihrs host alw st1; rw [h2] at this; exact this
              cases o2 with
              | ok b2 => simp only; rw [hs2, hs1]
              | err e2 => simp only; rw [hs2, hs1]
            · rw [if_neg hre]
              simp only
              rcases h2 : run_section tp n host rsc
                  { st1 with vars :=
                      st1.vars.setitem "reconstructed_error" (.str m) }
                  with ⟨o2, rsc2, st2⟩
              have hs2 : st2.vars.script_stack = st1.vars.script_stack := by
                have := ihrs host rsc
                  { st1 with vars :=
                      st1.vars.setitem "reconstructed_error" (.str m) }
                rw [h2] at this
                rw [this]; rfl
              simp only
              rcases h3 : run_section tp n host alw st2 with ⟨o3, alw', st3⟩
              have hs3 : st3.vars.script_stack = st2.vars.script_stack := by
                have := ihrs host alw st2; rw [h3] at this; exact this
              cases o3 with
              | ok b3 => simp only; rw [hs3, hs2, hs1]
              | err e3 => simp only; rw [hs3, hs2, hs1]
          | otherError m =>
            simp only
            rcases h2 : run_section tp n host alw st1 with ⟨o2, alw', st2⟩
            have hs2 : st2.vars.script_stack = st1.vars.script_stack := by
              have := ihrs host alw st1; rw [h2] at this; exact this
            cases o2 with
            | ok b2 => simp only; rw [hs2, hs1]
            | err e2 => simp only; rw [hs2, hs1]
    have hri : ∀ host i st,
        ((run_iteration tp (n + 1) host i st).2.2).vars.script_stack
          = st.vars.script_stack := by
      intro host i st
      simp only [run_iteration]
      rcases hcl : compute_locals tp i.flow.vars st.vars with ⟨oe, vs⟩
      have hvs : vs.script_stack = st.vars.script_stack := by
        have := compute_locals_stack tp i.flow.vars st.vars
        rw [hcl] at this
        exact this
      cases oe with
      | some e => exact hvs
      | none =>
        simp only
        cases evaluate_condition tp i.flow.condition vs with
        | error e => exact hvs
        | ok cond =>
          cases cond with
          | true =>
            simp only [if_pos]
            rw [ihea host i { st with vars := vs }]
            exact hvs
          | false => exact hvs
    have hrl : ∀ host i lv items st,
        ((run_loop_items tp (n + 1) host i lv items st).2.2).vars.script_stack
          = st.vars.script_stack := by
      intro host i lv items st
      cases items with
      | nil => rfl
      | cons v rest =>
        simp only [run_loop_items]
        rcases h : run_iteration tp n host i
            { st with vars := st.vars.setitem lv v } with ⟨o, i', st''⟩
        have hst : st''.vars.script_stack = st.vars.script_stack := by
          have := ihri host i { st with vars := st.vars.setitem lv v }
          rw [h] at this
          rw [this]; rfl
        match o with
        | .ok true =>
          simp only
          rw [ihrl host i' lv rest st'', hst]
        | .ok false => exact hst
        | .err e => exact hst
    have hrf : ∀ host i st,
        ((run_for tp (n + 1) host i st).2.2).vars.script_stack
          = st.vars.script_stack := by
      intro host i st
      by_cases hfl : i.flow.executed_once = some true
      · simp only [run_for, if_pos hfl]
      · simp only [run_for, if_neg hfl]
        generalize (if i.flow.executed_once = some false then i.setFired
          else i) = i2
        cases hlp : i2.flow.loop with
        | none =>
          simp only
          apply finishPop_stack _
            (stackRecord st.vars.script_vars i2.flow.save)
            st.vars.script_stack
          rw [ihri host i2
            { st with vars := st.vars._script_stack_push i2.flow.save }]
          rfl
        | some p =>
          obtain ⟨lp, lv⟩ := p
          simp only
          cases hev : evaluate_loop tp lp
              (st.vars._script_stack_push i2.flow.save) with
          | error e =>
            apply finishPop_stack _
              (stackRecord st.vars.script_vars i2.flow.save)
              st.vars.script_stack
            rfl
          | ok items =>
            apply finishPop_stack _
              (stackRecord st.vars.script_vars i2.flow.save)
              st.vars.script_stack
            rw [ihrl host i2 lv items
              { st with vars := st.vars._script_stack_push i2.flow.save }]
            rfl
    have hrs : ∀ host sect st,
        ((run_section tp (n + 1) host sect st).2.2).vars.script_stack
          = st.vars.script_stack := by
      intro host sect st
      cases sect with
      | nil => rfl
      | cons j rest =>
        simp only [run_section]
        rcases h : run_for tp n host j st with ⟨o, j', st'⟩
        have hst : st'.vars.script_stack = st.vars.script_stack := by
          have := ihrf host j st; rw [h] at this; exact this
        match o with
        | .ok true =>
          simp only
          rcases h2 : run_section tp n host rest st' with ⟨o2, rest', st''⟩
          have : st''.vars.script_stack = st'.vars.script_stack := by
            have := ihrs host rest st'; rw [h2] at this; exact this
          simp only
          rw [this, hst]
        | .ok false => exact hst
        | .err e => exact hst
    exact ⟨hrf, hrl, hri, hea, hrs⟩

/-- The `finally` pop restores every name of the pushed save set to its
snapshot value. -/
theorem finishPop_restores (r : RunResult) (m0 : VarMap)
    (names : List String) (S : List (List (String × Option Value)))
    (h : r.2.2.vars.script_stack = stackRecord m0 names :: S) :
    ∀ name ∈ names,
      ((finishPop r).2.2).vars.script_vars name = m0 name := by
  intro name hn
  rw [finishPop_eq r _ S h]
  exact popRestore_stackRecord_mem names m0 _ name hn

/-- The `finally` pop leaves names outside the pushed save set alone. -/
theorem finishPop_frame (r : RunResult)
    (rec : List (String × Option Value))
    (S : List (List (String × Option Value)))
    (h : r.2.2.vars.script_stack = rec :: S) (name : String)
    (hn : name ∉ rec.map Prod.fst) :
    ((finishPop r).2.2).vars.script_vars name
      = r.2.2.vars.script_vars name := by
  rw [finishPop_eq r rec S h]
  exact popRestore_not_mem rec _ name hn

/-- The save set is insensitive to the `run_once` marking. -/
theorem save_setFired (i : Instr) :
    (i.setFired).flow.save = i.flow.save := by
  cases i <;> rfl

/-- C3: on every exit path of `run_for` after the initial `run_once`
check — normal return, early interrupt, or an error raised by an
iteration — the save record pushed at entry is popped exactly once (the
save stack is exactly as before the call) and every name of the save set
(the `vars` keys plus `loop_var` when a loop is present) is restored to
exactly its pre-invocation script-local binding, absence included. -/
theorem C3_save_set_restored (tp : Templar) (fuel : Nat) (host : String)
    (i : Instr) (st : St) :
    ((run_for tp fuel host i st).2.2).vars.script_stack
        = st.vars.script_stack ∧
    ∀ name ∈ i.flow.save,
      ((run_for tp fuel host i st).2.2).vars.script_vars name
        = st.vars.script_vars name := by
  constructor
  · exact (interp_preserves_stack tp fuel).1 host i st
  · intro name hn
    cases fuel with
    | zero => rfl
    | succ n =>
      by_cases hfl : i.flow.executed_once = some true
      · simp only [run_for, if_pos hfl]
      · simp only [run_for, if_neg hfl]
        have hsave :
            (if i.flow.executed_once = some false then i.setFired
              else i).flow.save = i.flow.save := by
          split
          · exact save_setFired i
          · rfl
        set i2 := (if i.flow.executed_once = some false then i.setFired
          else i) with hI
        cases hlp : i2.flow.loop with
        | none =>
          simp only
          refine finishPop_restores _ st.vars.script_vars i2.flow.save
            st.vars.script_stack ?_ name ?_
          · rw [(interp_preserves_stack tp n).2.2.1 host i2
              { st with vars := st.vars._script_stack_push i2.flow.save }]
            rfl
          · rw [hsave]; exact hn
        | some p =>
          obtain ⟨lp, lv⟩ := p
          simp only
          cases hev : evaluate_loop tp lp
              (st.vars._script_stack_push i2.flow.save) with
          | error e =>
            refine finishPop_restores _ st.vars.script_vars i2.flow.save
              st.vars.script_stack ?_ name ?_
            · rfl
            · rw [hsave]; exact hn
          | ok items =>
            refine finishPop_restores _ st.vars.script_vars i2.flow.save
              st.vars.script_stack ?_ name ?_
            · rw [(interp_preserves_stack tp n).2.1 host i2 lv items
                { st with vars := st.vars._script_stack_push i2.flow.save }]
              rfl
            · rw [hsave]; exact hn

/-- Witness for C3: a looping `set_var` with save set `["x", "n"]`; after
`run_for`, the loop variable `n` is restored to its prior absence. -/
theorem C3_save_set_restored_witness :
    ((run_for tpEcho 5 "h1" instrLoopVars st0).2.2).vars.script_stack
        = st0.vars.script_stack ∧
    ((run_for tpEcho 5 "h1" instrLoopVars st0).2.2).vars.script_vars "n"
        = st0.vars.script_vars "n" :=
  ⟨(C3_save_set_restored tpEcho 5 "h1" instrLoopVars st0).1,
   (C3_save_set_restored tpEcho 5 "h1" instrLoopVars st0).2 "n"
     (by decide)⟩

/-- Marking an instruction as fired sets its `run_once` state. -/
theorem setFired_executed_once (i : Instr) :
    (i.setFired).flow.executed_once = some true := by
  cases i <;> rfl

/-- The `finally` pop does not replace the instruction object. -/
theorem finishPop_instr (r : RunResult) : (finishPop r).2.1 = r.2.1 := by
  unfold finishPop
  cases r.2.2.vars._script_stack_pop <;> rfl

/-- When `run_once` was parsed (fired or not), any `run_for` call leaves
the instruction marked as fired — the mark is set before the body runs,
so it survives errors and interrupts. -/
theorem run_for_fires (tp : Templar) (n : Nat) (host : String) (i : Instr)
    (st : St) (b : Bool) (h : i.flow.executed_once = some b) :
    ((run_for tp (n + 1) host i st).2.1).flow.executed_once = some true := by
  cases b with
  | true => simp only [run_for, if_pos h]; exact h
  | false =>
    have hfl : ¬(i.flow.executed_once = some true) := by
      rw [h]; intro hc; cases hc
    simp only [run_for, if_neg hfl, if_pos h]
    rw [finishPop_instr]
    set st1 : St :=
      { st with vars :=
          st.vars._script_stack_push (i.setFired).flow.save } with hst1
    cases hlp : (i.setFired).flow.loop with
    | none =>
      simp only
      rw [(interp_preserves_flow tp n).1 host i.setFired st1]
      exact setFired_executed_once i
    | some p =>
      obtain ⟨lp, lv⟩ := p
      simp only
      cases hev : evaluate_loop tp lp st1.vars with
      | error e => exact setFired_executed_once i
      | ok items =>
        rw [(interp_preserves_flow tp n).2.2 host i.setFired lv items st1]
        exact setFired_executed_once i

/-- A `run_for` call on an already-fired instruction returns `True`
immediately: no save-stack push or pop, no evaluation, no state change. -/
theorem run_for_skip (tp : Templar) (m : Nat) (host : String) (i : Instr)
    (st : St) (h : i.flow.executed_once = some true) :
    run_for tp (m + 1) host i st = (.ok true, i, st) := by
  simp only [run_for, if_pos h]

/-- C2: for an instruction with `run_once` enabled, two consecutive
`run_for` calls execute the action at most once: the first call leaves
the instruction marked as fired (even if it raised), and the second call
returns `True` immediately with the state untouched — no push or pop of
the save stack, no evaluation, no side effects. -/
theorem C2_run_once (tp : Templar) (n m : Nat) (host : String) (i : Instr)
    (st : St) (b : Bool) (o : Outcome) (i' : Instr) (st' st2 : St)
    (h : i.flow.executed_once = some b)
    (hrun : run_for tp (n + 1) host i st = (o, i', st')) :
    i'.flow.executed_once = some true ∧
    run_for tp (m + 1) host i' st2 = (.ok true, i', st2) := by
  have hf := run_for_fires tp n host i st b h
  rw [hrun] at hf
  exact ⟨hf, run_for_skip tp m host i' st2 hf⟩

/-- Witness for C2 at a concrete `run_once` instruction. -/
theorem C2_run_once_witness :
    ((run_for tpEcho 3 "h1" instrRunOnce st0).2.1).flow.executed_once
        = some true ∧
    run_for tpEcho 3 "h1" (run_for tpEcho 3 "h1" instrRunOnce st0).2.1 st0
      = (.ok true, (run_for tpEcho 3 "h1" instrRunOnce st0).2.1, st0) :=
  C2_run_once tpEcho 2 2 "h1" instrRunOnce st0 false
    (run_for tpEcho 3 "h1" instrRunOnce st0).1
    (run_for tpEcho 3 "h1" instrRunOnce st0).2.1
    (run_for tpEcho 3 "h1" instrRunOnce st0).2.2 st0 rfl rfl

/-- C1: when an instruction of a block's `block` list raises a
recoverable runtime error (`AnsibleError`), then — if `rescue` is
non-empty — `reconstructed_error` is bound to the error's message in the
active scope, the `rescue` instructions run instead on that state, and
the block's result is the rescue result (the original error does not
propagate); if `rescue` is empty, the original error propagates to the
caller (after `always` has run). -/
theorem C1_block_rescue (tp : Templar) (fuel : Nat) (host : String)
    (f : RcFlow) (blk rsc alw : List Instr) (st : St) (m : String)
    (blk' : List Instr) (st1 : St)
    (hblk : run_section tp fuel host blk st
      = (.err (.ansibleError m), blk', st1)) :
    (∀ (o2 : Outcome) (rsc2 : List Instr) (st2 : St) (b : Bool)
        (alw' : List Instr) (st3 : St),
       rsc ≠ [] →
       run_section tp fuel host rsc
           { st1 with vars :=
              st1.vars.setitem "reconstructed_error" (.str m) }
         = (o2, rsc2, st2) →
       run_section tp fuel host alw st2 = (.ok b, alw', st3) →
       execute_action tp (fuel + 1) host (.block f blk rsc alw) st
         = (o2, .block f blk' rsc2 alw', st3)) ∧
    (∀ (b : Bool) (alw' : List Instr) (st3 : St),
       rsc = [] →
       run_section tp fuel host alw st1 = (.ok b, alw', st3) →
       execute_action tp (fuel + 1) host (.block f blk rsc alw) st
         = (.err (.ansibleError m), .block f blk' rsc alw', st3)) := by
  constructor
  · intro o2 rsc2 st2 b alw' st3 hne h2 h3
    have hre : ¬(rsc.isEmpty = true) := by
      cases rsc with
      | nil => exact absurd rfl hne
      | cons x xs => simp [List.isEmpty]
    simp only [execute_action]
    rw [hblk]
    simp only [if_neg hre]
    rw [h2]
    simp only
    rw [h3]
  · intro b alw' st3 hre h3
    subst hre
    simp only [execute_action]
    rw [hblk]
    simp only [List.isEmpty, if_pos]
    rw [h3]

/-- Witness for C1, the spec scenario `{action: block, block:
[{action: fail}], rescue: [{action: set_fact, name: "r", value: "ok"}]}`:
the rescue runs on the state carrying `reconstructed_error`, its outcome
is the block's outcome, and the fact `r = "ok"` lands on the host. -/
theorem C1_block_rescue_witness :
    (execute_action tpEcho 9 "h1" blockFailRescue st0
      = ((run_section tpEcho 8 "h1" rescueSection stResc).1,
         .block plainFlow [.fail plainFlow none]
           (run_section tpEcho 8 "h1" rescueSection stResc).2.1 [],
         (run_section tpEcho 8 "h1" rescueSection stResc).2.2)) ∧
    ((run_section tpEcho 8 "h1" rescueSection stResc).2.2).vars.host_vars
        "r" = some (.str "ok") ∧
    (run_section tpEcho 8 "h1" rescueSection stResc).1 = .ok true :=
  ⟨(C1_block_rescue tpEcho 8 "h1" plainFlow [.fail plainFlow none]
      rescueSection [] st0 "fail requested (h1)" [.fail plainFlow none]
      st0 rfl).1
    _ _ _ true [] _ (List.cons_ne_nil _ _) rfl rfl,
   rfl, rfl⟩

/-- C8: a `stop` signal — a normal `False` return from inside `block` —
is not caught by `rescue`: the `always` instructions still run, the
block's result is `False`, and at `run_for` level the interrupt
propagates upward (the rescue list is left untouched in the result). -/
theorem C8_stop_not_rescued (tp : Templar) (fuel : Nat) (host : String)
    (f : RcFlow) (blk rsc alw : List Instr) (stA : St)
    (blk' : List Instr) (st1 : St)
    (hblk : run_section tp fuel host blk stA = (.ok false, blk', st1)) :
    (∀ (b : Bool) (alw' : List Instr) (st2 : St),
       run_section tp fuel host alw st1 = (.ok b, alw', st2) →
       execute_action tp (fuel + 1) host (.block f blk rsc alw) stA
         = (.ok false, .block f blk' rsc alw', st2)) ∧
    (∀ (f0 : RcFlow) (st4 : St),
       execute_action tp (fuel + 1) host (.stop f0) st4
         = (.ok false, .stop f0, st4)) ∧
    (∀ (stOut : St) (b : Bool) (alw' : List Instr) (st2 : St),
       f = plainFlow →
       stA = { stOut with vars := stOut.vars._script_stack_push [] } →
       run_section tp fuel host alw st1 = (.ok b, alw', st2) →
       ∃ vs', st2.vars._script_stack_pop = some vs' ∧
         run_for tp (fuel + 3) host (.block f blk rsc alw) stOut
           = (.ok false, .block f blk' rsc alw', { st2 with vars := vs' })) := by
  refine ⟨?_, ?_, ?_⟩
  · intro b alw' st2 halw
    simp only [execute_action]
    rw [hblk]
    simp only
    rw [halw]
  · intro f0 st4
    rfl
  · intro stOut b alw' st2 hf hA halw
    subst hf
    subst hA
    -- the save stack under the block body: one empty record on top
    have hstk2 : st2.vars.script_stack
        = ([] : List (String × Option Value)) :: stOut.vars.script_stack := by
      have e1 := (interp_preserves_stack tp fuel).2.2.2.2 host blk
        { stOut with vars := stOut.vars._script_stack_push [] }
      rw [hblk] at e1
      have e2 := (interp_preserves_stack tp fuel).2.2.2.2 host alw st1
      rw [halw] at e2
      rw [e2, e1]
      rfl
    have hpop := pop_of_cons st2.vars [] stOut.vars.script_stack hstk2
    refine ⟨_, hpop, ?_⟩
    show run_for tp ((fuel + 2) + 1) host _ stOut = _
    simp only [run_for]
    rw [if_neg (by intro hc; cases hc)]
    rw [if_neg (by intro hc; cases hc)]
    have hbody : run_iteration tp (fuel + 2) host
        (.block plainFlow blk rsc alw)
        { stOut with vars := stOut.vars._script_stack_push [] }
        = (.ok false, .block plainFlow blk' rsc alw', st2) := by
      show execute_action tp (fuel + 1) host
        (.block plainFlow blk rsc alw)
        { stOut with vars := stOut.vars._script_stack_push [] } = _
      simp only [execute_action]
      rw [hblk]
      simp only
      rw [halw]
    show finishPop
        (run_iteration tp (fuel + 2) host (.block plainFlow blk rsc alw)
          { stOut with vars := stOut.vars._script_stack_push [] }) = _
    rw [hbody]
    unfold finishPop
    rw [hpop]

/-- Witness for C8: a block whose body is `stop` and whose rescue would
set `r2`; the interrupt passes through, the rescue list is untouched. -/
theorem C8_stop_not_rescued_witness :
    ∃ vs', st0push.vars._script_stack_pop = some vs' ∧
      run_for tpEcho 8 "h1" blockStopRescue st0
        = (.ok false,
           .block plainFlow [.stop plainFlow]
             [.setVarOrFact plainFlow false false "r2" (.str "x")] [],
           { st0push with vars := vs' }) :=
  (C8_stop_not_rescued tpEcho 5 "h1" plainFlow [.stop plainFlow]
      [.setVarOrFact plainFlow false false "r2" (.str "x")] []
      st0push [.stop plainFlow] st0push rfl).2.2
    st0 true [] st0push rfl rfl rfl

/-- Marking an instruction as fired does not change its loop clause. -/
theorem setFired_loop (i : Instr) :
    (i.setFired).flow.loop = i.flow.loop := by
  cases i <;> rfl

/-- Pushing a save record does not change the merged cache view. -/
theorem push_cache (s : VariableStorage) (names : List String) :
    (s._script_stack_push names).cache = s.cache := rfl

/-- The `finally` pop keeps the body's outcome (the stack is non-empty
because the entry push put a record there). -/
theorem finishPop_outcome (r : RunResult)
    (rec : List (String × Option Value))
    (S : List (List (String × Option Value)))
    (h : r.2.2.vars.script_stack = rec :: S) :
    (finishPop r).1 = r.1 := by
  rw [finishPop_eq r rec S h]

/-- C6: with a `loop` configured, `run_for` evaluates the loop source
through the Template Evaluator (a literal sequence passes unchanged
through the engine, a template string must produce one): (a) a
non-sequence result raises a runtime error; (b) each value, in order, is
bound to `loop_var` before its iteration, and as soon as an iteration
signals `False` the remaining items are not run and `run_for` returns
`False`; (c) an iteration signalling `True` hands the loop on to the
remaining items in order. -/
theorem C6_loop_semantics (tp : Templar) (fuel : Nat) (host : String)
    (i : Instr) (st : St) (lp : Value) (lv : String)
    (hl : i.flow.loop = some (lp, lv))
    (hfired : i.flow.executed_once ≠ some true) :
    (∀ w, tp.template st.vars.cache lp = .ok w → (∀ l, w ≠ .list l) →
       (run_for tp (fuel + 1) host i st).1
         = .err (.ansibleError
             ("template " ++ lp.pyRepr ++ " did not evaluate to a list"))) ∧
    (∀ i2 v rest i' stI,
       i2 = (if i.flow.executed_once = some false then i.setFired else i) →
       tp.template st.vars.cache lp = .ok (.list (v :: rest)) →
       run_iteration tp fuel host i2
           { st with vars :=
               (st.vars._script_stack_push i2.flow.save).setitem lv v }
         = (.ok false, i', stI) →
       ∃ vs', stI.vars._script_stack_pop = some vs' ∧
         run_for tp (fuel + 2) host i st
           = (.ok false, i', { stI with vars := vs' })) ∧
    (∀ (j : Instr) (v : Value) (rest : List Value) (i' : Instr)
        (stI stA : St),
       run_iteration tp fuel host j
           { stA with vars := stA.vars.setitem lv v } = (.ok true, i', stI) →
       run_loop_items tp (fuel + 1) host j lv (v :: rest) stA
         = run_loop_items tp fuel host i' lv rest stI) := by
  refine ⟨?_, ?_, ?_⟩
  · intro w htp hnl
    simp only [run_for, if_neg hfired]
    set i2 := (if i.flow.executed_once = some false then i.setFired else i)
      with hi2
    have hlp2 : i2.flow.loop = some (lp, lv) := by
      rw [hi2]
      split
      · rw [setFired_loop]; exact hl
      · exact hl
    rw [hlp2]
    simp only [evaluate_loop, push_cache]
    rw [htp]
    cases w with
    | list l => exact absurd rfl (hnl l)
    | str s =>
      exact finishPop_outcome _
        (stackRecord st.vars.script_vars i2.flow.save)
        st.vars.script_stack rfl
    | bool b =>
      exact finishPop_outcome _
        (stackRecord st.vars.script_vars i2.flow.save)
        st.vars.script_stack rfl
    | int n =>
      exact finishPop_outcome _
        (stackRecord st.vars.script_vars i2.flow.save)
        st.vars.script_stack rfl
    | null =>
      exact finishPop_outcome _
        (stackRecord st.vars.script_vars i2.flow.save)
        st.vars.script_stack rfl
  · intro i2 v rest i' stI hi2 htp hit
    have hstI : stI.vars.script_stack
        = stackRecord st.vars.script_vars i2.flow.save
            :: st.vars.script_stack := by
      have e := (interp_preserves_stack tp fuel).2.2.1 host i2
        { st with vars :=
            (st.vars._script_stack_push i2.flow.save).setitem lv v }
      rw [hit] at e
      rw [e]
      rfl
    have hpop := pop_of_cons stI.vars _ _ hstI
    refine ⟨_, hpop, ?_⟩
    show run_for tp ((fuel + 1) + 1) host i st = _
    simp only [run_for, if_neg hfired]
    rw [← hi2]
    have hlp2 : i2.flow.loop = some (lp, lv) := by
      rw [hi2]
      split
      · rw [setFired_loop]; exact hl
      · exact hl
    rw [hlp2]
    simp only [evaluate_loop, push_cache]
    rw [htp]
    simp only [run_loop_items]
    rw [show ({ st with vars :=
        st.vars._script_stack_push i2.flow.save } : St).vars.setitem lv v
      = (st.vars._script_stack_push i2.flow.save).setitem lv v from rfl]
    rw [hit]
    unfold finishPop
    rw [hpop]
  · intro j v rest i' stI stA hit
    simp only [run_loop_items]
    rw [hit]

/-- Witness for C6: a string-valued loop source raises the runtime
error, and a two-item loop whose first iteration interrupts returns
`False` without visiting the second item. -/
theorem C6_loop_semantics_witness :
    ((run_for tpEcho 4 "h1" instrBadLoop st0).1
        = .err (.ansibleError
            ("template " ++ (Value.str "x").pyRepr
              ++ " did not evaluate to a list"))) ∧
    ∃ vs', stC6.vars._script_stack_pop = some vs' ∧
      run_for tpEcho 5 "h1" instrStopLoop st0
        = (.ok false, instrStopLoop, { stC6 with vars := vs' }) :=
  ⟨(C6_loop_semantics tpEcho 3 "h1" instrBadLoop st0 (.str "x") "n" rfl
      (by intro h; cases h)).1 (.str "x") rfl
      (by intro l h; cases h),
   (C6_loop_semantics tpEcho 3 "h1" instrStopLoop st0
      (.list [.str "a", .str "b"]) "n" rfl (by intro h; cases h)).2.1
     instrStopLoop (.str "a") [.str "b"] instrStopLoop stC6 rfl rfl rfl⟩

/-- C7, divergence at the failing input: `get_templated_group` with a
templated name whose evaluation yields a non-string (here the empty
list) does not raise the claimed re-validation runtime error — the
`isinstance` check is performed on the original field, which is always a
string — and instead crashes with an `AttributeError` (not an
`AnsibleError`) when `.strip()` is called on the non-string result.  By
contrast, `RciSetVarOrFact.execute_action` performs the same
re-validation correctly on the templated result and raises the intended
`AnsibleRuntimeError`. -/
theorem C7_nonstring_group_name_crashes :
    get_templated_group tpList inv0 "add_host"
        (VariableStorage.init VarMap.empty) true "[[x]]" false
      = .error (.otherError "AttributeError: object has no attribute strip")
    ∧ resolveVarName tpList "set_fact" (VariableStorage.init VarMap.empty)
        true "[[x]]"
      = .error (.ansibleError
          "set_fact: [[x]] did not coalesce into a string") :=
  ⟨rfl, rfl⟩

/-- C10: `reconstructed_error` is not part of a block's save set (which
holds only the `vars` keys and the loop variable), so after the block's
`run_for` completes, the `reconstructed_error` binding left by the
rescue path persists in the variable storage exactly as the sections
left it — the exit pop restores only the save set. -/
theorem C10_reconstructed_error_persists (tp : Templar) (fuel : Nat)
    (host : String) (f : RcFlow) (blk rsc alw : List Instr) (stOut : St)
    (vsB : VariableStorage) (m : String) (blk' : List Instr) (st1 : St)
    (o2 : Outcome) (rsc2 : List Instr) (st2 : St) (b : Bool)
    (alw' : List Instr) (st3 : St)
    (hname : "reconstructed_error" ∉ RcFlow.save f)
    (hc : f.condition = none) (hl : f.loop = none)
    (he : f.executed_once = none)
    (hcl : compute_locals tp f.vars
        (stOut.vars._script_stack_push (RcFlow.save f)) = (none, vsB))
    (hblk : run_section tp fuel host blk { stOut with vars := vsB }
      = (.err (.ansibleError m), blk', st1))
    (hrsc : rsc ≠ [])
    (hrun2 : run_section tp fuel host rsc
        { st1 with vars :=
            st1.vars.setitem "reconstructed_error" (.str m) }
      = (o2, rsc2, st2))
    (halw : run_section tp fuel host alw st2 = (.ok b, alw', st3)) :
    ∃ vs', st3.vars._script_stack_pop = some vs' ∧
      run_for tp (fuel + 3) host (.block f blk rsc alw) stOut
        = (o2, .block f blk' rsc2 alw', { st3 with vars := vs' }) ∧
      vs'.script_vars "reconstructed_error"
        = st3.vars.script_vars "reconstructed_error" := by
  have hstk3 : st3.vars.script_stack
      = stackRecord stOut.vars.script_vars (RcFlow.save f)
          :: stOut.vars.script_stack := by
    have e0 : vsB.script_stack
        = stackRecord stOut.vars.script_vars (RcFlow.save f)
            :: stOut.vars.script_stack := by
      have e := compute_locals_stack tp f.vars
        (stOut.vars._script_stack_push (RcFlow.save f))
      rw [hcl] at e
      exact e
    have e1 := (interp_preserves_stack tp fuel).2.2.2.2 host blk
      { stOut with vars := vsB }
    rw [hblk] at e1
    have e2 := (interp_preserves_stack tp fuel).2.2.2.2 host rsc
      { st1 with vars :=
          st1.vars.setitem "reconstructed_error" (.str m) }
    rw [hrun2] at e2
    have e3 := (interp_preserves_stack tp fuel).2.2.2.2 host alw st2
    rw [halw] at e3
    rw [e3, e2]
    show st1.vars.script_stack = _
    rw [e1]
    exact e0
  have hpop := pop_of_cons st3.vars _ stOut.vars.script_stack hstk3
  refine ⟨_, hpop, ?_, ?_⟩
  · obtain ⟨fc, fl, fv, fe⟩ := f
    change fc = none at hc
    change fl = none at hl
    change fe = none at he
    subst hc
    subst hl
    subst he
    show run_for tp ((fuel + 2) + 1) host _ stOut = _
    simp only [run_for]
    rw [if_neg (fun hcon => by cases hcon)]
    rw [if_neg (fun hcon => by cases hcon)]
    set vsP : VariableStorage :=
      stOut.vars._script_stack_push (RcFlow.save ⟨none, none, fv, none⟩)
      with hvsP
    have hbody : run_iteration tp (fuel + 2) host
        (.block ⟨none, none, fv, none⟩ blk rsc alw)
        { stOut with vars := vsP }
        = (o2, .block ⟨none, none, fv, none⟩ blk' rsc2 alw', st3) := by
      show run_iteration tp ((fuel + 1) + 1) host _ _ = _
      simp only [run_iteration, Instr.flow]
      rw [hcl]
      show execute_action tp (fuel + 1) host
        (.block ⟨none, none, fv, none⟩ blk rsc alw)
        { stOut with vars := vsB } = _
      simp only [execute_action]
      rw [hblk]
      have hre : ¬(rsc.isEmpty = true) := by
        cases rsc with
        | nil => exact absurd rfl hrsc
        | cons x xs => simp [List.isEmpty]
      simp only [if_neg hre]
      rw [hrun2]
      simp only
      rw [halw]
    show finishPop
        (run_iteration tp (fuel + 2) host
          (.block ⟨none, none, fv, none⟩ blk rsc alw)
          { stOut with vars := vsP }) = _
    rw [hbody]
    unfold finishPop
    rw [hpop]
  · have hkeys : "reconstructed_error"
        ∉ (stackRecord stOut.vars.script_vars (RcFlow.save f)).map
            Prod.fst := by
      rw [stackRecord_keys]
      exact hname
    dsimp only
    exact popRestore_not_mem _ _ _ hkeys

/-- Witness for C10 on the spec scenario block: after `run_for`
completes, the binding survives the exit pop unchanged. -/
theorem C10_reconstructed_error_persists_witness :
    ∃ vs',
      (run_section tpEcho 5 "h1" rescueSection
          stRescP).2.2.vars._script_stack_pop = some vs' ∧
      run_for tpEcho 8 "h1" blockFailRescue st0
        = ((run_section tpEcho 5 "h1" rescueSection stRescP).1,
           .block plainFlow [.fail plainFlow none]
             (run_section tpEcho 5 "h1" rescueSection stRescP).2.1 [],
           { (run_section tpEcho 5 "h1" rescueSection stRescP).2.2 with
              vars := vs' }) ∧
      vs'.script_vars "reconstructed_error"
        = (run_section tpEcho 5 "h1" rescueSection
            stRescP).2.2.vars.script_vars "reconstructed_error" :=
  C10_reconstructed_error_persists tpEcho 5 "h1" plainFlow
    [.fail plainFlow none] rescueSection [] st0 st0push.vars
    "fail requested (h1)" [.fail plainFlow none] st0push
    (run_section tpEcho 5 "h1" rescueSection stRescP).1
    (run_section tpEcho 5 "h1" rescueSection stRescP).2.1
    (run_section tpEcho 5 "h1" rescueSection stRescP).2.2
    true []
    (run_section tpEcho 5 "h1" rescueSection stRescP).2.2
    (by decide) rfl rfl rfl rfl rfl (List.cons_ne_nil _ _) rfl rfl
